import Mathlib

/-!
# Verification of the ffrizyrewards browser widgets

Shallow embedding of the two browser-side widgets of this repository:

* the countdown timer (source file with the `calculateTimeRemaining` function,
  target date `Date.UTC(2025, 11, 30, 23, 59, 59)`), and
* the leaderboard refresh widget (source file with `updateLeaderboard`,
  `createEasternDate`, `getMonthStartEastern`, `getMonthEndEastern`,
  `formatCurrency`, and the `day` URL-parameter window selection).

JavaScript machine values are embedded as follows: a JS number is either NaN
or a finite value, modelled as a rational; millisecond epoch timestamps are
integers; `Date.UTC` is modelled by a proleptic-Gregorian day count
(days-from-civil algorithm) with the same month/day overflow normalization
that JS applies; `Array.prototype.sort` with a comparator is modelled as a
stable insertion sort using the ECMAScript SortCompare collapse (a comparator
result of NaN is treated as 0, i.e. as a tie). Fallible code paths (thrown
TypeError, rejected promises) are modelled with `Except`, and the top-level
`.catch` handler of the fetch chain is an explicit match on that `Except`.
-/

/-- A JavaScript number: NaN or a finite value (modelled as a rational).
Signed zero and infinities play no role in this code base. -/
inductive JSNumber where
  | nan : JSNumber
  | fin (q : ℚ) : JSNumber
  deriving DecidableEq, Repr

/-- A JavaScript value as it can appear in the `wagerAmount` (or other)
field of a leaderboard entry object. -/
inductive FieldVal where
  | num (x : JSNumber) : FieldVal
  | str (s : String) : FieldVal
  | undef : FieldVal
  | nullV : FieldVal
  | boolV (b : Bool) : FieldVal
  deriving DecidableEq, Repr

/-- A leaderboard entry object. `username` is an optional string
(`none` stands for an absent / undefined field). -/
structure Player where
  username : Option String
  wagerAmount : FieldVal
  deriving DecidableEq, Repr

/-- An element of the `data` array: either an entry object or a nullish
value (`null`/`undefined`), which the filter drops via the `player &&`
truthiness check. -/
abbrev JSEntry := Option Player

/-! ## Calendar arithmetic: the model of `Date.UTC`

`Date.UTC(y, m, d, h, mi, s)` returns epoch milliseconds for the given UTC
calendar components, normalizing out-of-range months and days by rolling
them over (month is 0-based in JS). The day count uses the standard
days-from-civil algorithm for the proleptic Gregorian calendar; validated
against the millisecond constants that appear in the source comments
(e.g. `endTime=1767139199000` for December 30 2025, 23:59:59 UTC). -/

/-- Year adjusted so that the leap day is the last day of the shifted year
(month here is 1-based, January = 1). -/
def civilYear (y m : ℤ) : ℤ := if m ≤ 2 then y - 1 else y

/-- 400-year era of the adjusted year (floor division). -/
def civilEra (y m : ℤ) : ℤ := (civilYear y m).fdiv 400

/-- Year of era, in [0, 399]. -/
def civilYoe (y m : ℤ) : ℤ := civilYear y m - civilEra y m * 400

/-- Day of the shifted year (March-based month numbering); linear in `d`. -/
def civilDoy (m d : ℤ) : ℤ := (153 * ((m + 9).emod 12) + 2).fdiv 5 + (d - 1)

/-- Day of era. -/
def civilDoe (y m d : ℤ) : ℤ :=
  civilYoe y m * 365 + (civilYoe y m).fdiv 4 - (civilYoe y m).fdiv 100 + civilDoy m d

/-- Days since the Unix epoch (1970-01-01) of the civil date `y-m-d`
(month 1-based); `d` may be out of range and is handled linearly, exactly
like the day argument of `Date.UTC`. -/
def daysFromCivil (y m d : ℤ) : ℤ := civilEra y m * 146097 + civilDoe y m d - 719468

/-- Model of `Date.UTC(y, m, d, h, mi, s).getTime()` with a 0-based month,
in epoch milliseconds. Month overflow is normalized with floor division /
Euclidean remainder, matching the JS MakeDay normalization; day, hour,
minute and second components are linear. -/
def epochUTC (y m d h mi s : ℤ) : ℤ :=
  daysFromCivil (y + m.fdiv 12) (m.emod 12 + 1) d * 86400000 +
    h * 3600000 + mi * 60000 + s * 1000

/-- Gregorian leap-year test, as used by `Date` for February lengths. -/
def isLeap (y : ℤ) : Bool := y.emod 4 = 0 && (y.emod 100 != 0 || y.emod 400 = 0)

/-- Model of `new Date(year, month + 1, 0).getDate()`: the number of days of
month `m` (0-based, normalized like `Date.UTC`) in year `y`. -/
def daysInMonth (y m : ℤ) : ℤ :=
  if m.emod 12 = 1 then (if isLeap (y + m.fdiv 12) then 29 else 28)
  else if m.emod 12 = 3 ∨ m.emod 12 = 5 ∨ m.emod 12 = 8 ∨ m.emod 12 = 10 then 30
  else 31

/-! ## The leaderboard time-window resolver (main variant)

From the main leaderboard source: `createEasternDate` converts Eastern-time
components to UTC using a hardcoded month-based DST heuristic, and the
window is either the current Eastern month (default) or a single day of the
current month when a `day` URL parameter in [1, 31] is present. The current
Eastern year and month (obtained in the source from an
`Intl.DateTimeFormat` formatter) are parameters of the model. -/

/-- The DST heuristic of `createEasternDate`: months March (2) through
November (10), 0-based, are treated as DST (UTC-4), the rest as UTC-5. -/
def offsetHours (month : ℤ) : ℤ := if 2 ≤ month ∧ month ≤ 10 then 4 else 5

/-- `createEasternDate(year, month, day, hour, minute, second)`: the
UTC instant of the given Eastern-time components, per the DST heuristic. -/
def createEasternDate (y m d h mi s : ℤ) : ℤ := epochUTC y m d (h + offsetHours m) mi s

/-- `getMonthStartEastern()`: first day of the current Eastern month at
00:00:00 Eastern, given the current Eastern year and 0-based month. -/
def getMonthStartEastern (y m : ℤ) : ℤ := createEasternDate y m 1 0 0 0

/-- `getMonthEndEastern()`: last day of the current Eastern month at
23:59:59 Eastern. -/
def getMonthEndEastern (y m : ℤ) : ℤ := createEasternDate y m (daysInMonth y m) 23 59 59

/-- Result of `parseInt(dayParam)` for a present (truthy) `day` URL
parameter: either NaN (unparseable) or an integer. -/
inductive ParsedDay where
  | nan : ParsedDay
  | val (d : ℤ) : ParsedDay
  deriving DecidableEq, Repr

/-- The `startTime`/`endTime` selection of the main leaderboard source:
absent (or falsy) `day` parameter and unparseable or out-of-range day
values fall back to the default monthly window; a day in [1, 31] gives
that day of the current Eastern month. -/
def selectWindow (y m : ℤ) (dayParam : Option ParsedDay) : ℤ × ℤ :=
  match dayParam with
  | none => (getMonthStartEastern y m, getMonthEndEastern y m)
  | some ParsedDay.nan => (getMonthStartEastern y m, getMonthEndEastern y m)
  | some (ParsedDay.val d) =>
      if 1 ≤ d ∧ d ≤ 31 then
        (createEasternDate y m d 0 0 0, createEasternDate y m d 23 59 59)
      else (getMonthStartEastern y m, getMonthEndEastern y m)

/-- The fixed-constant window selection of the secondary leaderboard
variant: December 2025 UTC constants, with the same `day` override rule. -/
def selectWindowFixed (dayParam : Option ParsedDay) : ℤ × ℤ :=
  match dayParam with
  | some (ParsedDay.val d) =>
      if 1 ≤ d ∧ d ≤ 31 then
        (epochUTC 2025 11 d 0 0 0, epochUTC 2025 11 d 23 59 59)
      else (epochUTC 2025 11 1 0 0 0, epochUTC 2025 11 30 23 59 59)
  | _ => (epochUTC 2025 11 1 0 0 0, epochUTC 2025 11 30 23 59 59)

/-! ## The countdown widget

From the countdown source: target `Date.UTC(2025, 11, 30, 23, 59, 59)`;
each tick computes `difference = target - now`; if it is nonpositive the
interval is cleared and the fixed expired string is written, otherwise the
difference is decomposed by integer division into days, hours, minutes,
seconds, each zero-padded to two digits with `padStart(2, "0")`. -/

/-- The countdown target instant, `Date.UTC(2025, 11, 30, 23, 59, 59)`. -/
def targetDate : ℤ := epochUTC 2025 11 30 23 59 59

/-- `String(n).padStart(2, "0")`: left-pad to length two with zeros. -/
def padStart2 (s : String) : String :=
  if s.length ≥ 2 then s else if s.length = 1 then "0" ++ s else "00"

/-- The countdown display string for a positive remaining difference:
`Math.floor` decomposition into days, hours, minutes, seconds (on positive
operands, JS `Math.floor(a / b)` is floor division and `%` is the
Euclidean remainder). -/
def formatCountdown (difference : ℤ) : String :=
  padStart2 (toString (difference.fdiv 86400000)) ++ "D " ++
    padStart2 (toString ((difference.emod 86400000).fdiv 3600000)) ++ "H " ++
    padStart2 (toString ((difference.emod 3600000).fdiv 60000)) ++ "M " ++
    padStart2 (toString ((difference.emod 60000).fdiv 1000)) ++ "S"

/-- Outcome of one countdown tick body. -/
inductive TickResult where
  | expired (display : String) : TickResult
  | running (display : String) : TickResult
  deriving DecidableEq, Repr

/-- The body of `calculateTimeRemaining`, as a function of the current
time: on a nonpositive difference it clears the interval and writes the
fixed expired string, otherwise it writes the formatted remainder. -/
def calculateTimeRemaining (now : ℤ) : TickResult :=
  if targetDate - now ≤ 0 then TickResult.expired "00D 00H 00M 00S"
  else TickResult.running (formatCountdown (targetDate - now))

/-- Countdown scheduler state: whether the repeating interval is active. -/
structure TimerState where
  intervalActive : Bool
  deriving DecidableEq, Repr

/-- One scheduled countdown tick: the tick body only runs while the
repeating interval is active (after `clearInterval` no tick fires, hence
no further DOM write occurs); the `Option String` is the DOM write. -/
def timerTick (st : TimerState) (now : ℤ) : TimerState × Option String :=
  if st.intervalActive then
    match calculateTimeRemaining now with
    | TickResult.expired msg => (⟨false⟩, some msg)
    | TickResult.running msg => (st, some msg)
  else (st, none)

/-! ## Currency formatting

`formatCurrency` computes `Number(value) || 0` and renders it with
`toLocaleString("en-US", {minimumFractionDigits: 2, maximumFractionDigits:
2})`: a sign, thousands groups separated by commas, and exactly two
fraction digits (the en-US default rounding mode, halfExpand, rounds
half away from zero). -/

/-- `Number(value)` on a field value. The string case is never exercised
by this program (the only call site applies `formatCurrency` to values
that already passed the `typeof === "number"` filter), so nonempty
numeric strings, which a full ToNumber would parse, are collapsed to
NaN here. -/
def jsToNumber (v : FieldVal) : JSNumber :=
  match v with
  | FieldVal.num x => x
  | FieldVal.str _ => JSNumber.nan
  | FieldVal.undef => JSNumber.nan
  | FieldVal.nullV => JSNumber.fin 0
  | FieldVal.boolV b => JSNumber.fin (if b then 1 else 0)

/-- `x || 0` on a number: NaN and zero are falsy, so both become 0. -/
def orZero (x : JSNumber) : ℚ :=
  match x with
  | JSNumber.nan => 0
  | JSNumber.fin q => q

/-- The cent count of an amount: 100 q rounded half away from zero (the
en-US halfExpand rounding), computed on the numerator and denominator so
that it stays kernel-evaluable: for q = n / d with d > 0 this is
sign(n) * floor((200 |n| + d) / (2 d)). -/
def roundCents (q : ℚ) : ℤ :=
  if q.num < 0 then -((-200 * q.num + (q.den : ℤ)).fdiv (2 * (q.den : ℤ)))
  else (200 * q.num + (q.den : ℤ)).fdiv (2 * (q.den : ℤ))

/-- Insert a comma after every three digits of a reversed digit list; the
first argument is recursion fuel (any bound on the number of groups). -/
def groupChars : ℕ → List Char → List Char
  | 0, ds => ds
  | fuel + 1, ds =>
      if ds.length ≤ 3 then ds
      else ds.take 3 ++ [','] ++ groupChars fuel (ds.drop 3)

/-- Decimal digits of a natural number with en-US thousands separators. -/
def insertCommas (n : ℕ) : String :=
  String.mk (groupChars (toString n).length (toString n).toList.reverse).reverse

/-- Two decimal digits, zero padded. -/
def pad2dig (n : ℕ) : String := if n < 10 then "0" ++ toString n else toString n

/-- Fixed two-fraction-digit en-US formatting of a rational. -/
def formatFixed2 (q : ℚ) : String :=
  (if roundCents q < 0 then "-" else "") ++
    insertCommas ((roundCents q).natAbs / 100) ++ "." ++
    pad2dig ((roundCents q).natAbs % 100)

/-- `formatCurrency(value)` from the leaderboard sources. -/
def formatCurrency (value : FieldVal) : String := formatFixed2 (orZero (jsToNumber value))

/-! ## The filter / sort / truncate pipeline

From the main leaderboard source:
`data.filter((player) => player && typeof player?.wagerAmount === "number")
     .sort((a, b) => b.wagerAmount - a.wagerAmount)
     .slice(0, MAX_PLAYERS)` with `MAX_PLAYERS = 10`.

The comparator subtraction is NaN whenever either wager is NaN; the
ECMAScript SortCompare operation turns a NaN comparator result into +0,
i.e. a tie, and the sort is required to be stable. Where the comparator is
consistent (no NaN wagers) any stable sort produces the same list, so the
sort is embedded as a stable insertion sort over the collapsed comparator;
on NaN wagers this matches the engine insertion-sort behavior for short
runs. -/

/-- The filter predicate: `player && typeof player?.wagerAmount ===
"number"`. Nullish array elements are dropped; NaN has type number and is
kept, as is an exact zero wager. -/
def filterPred (e : JSEntry) : Bool :=
  match e with
  | none => false
  | some p =>
      match p.wagerAmount with
      | FieldVal.num _ => true
      | _ => false

/-- The wager of an entry as a JS number (nullish entries and non-number
wagers coerce to NaN; the sort only ever sees post-filter entries, whose
wagers are numbers). -/
def wagerNum (e : JSEntry) : JSNumber :=
  match e with
  | some p => jsToNumber p.wagerAmount
  | none => JSNumber.nan

/-- The SortCompare collapse of the comparator
`(a, b) => b.wagerAmount - a.wagerAmount`: true when a sorts no later
than b, i.e. the comparator value is nonpositive; a NaN comparator value
counts as 0, hence as true. -/
def jsLe (a b : JSEntry) : Bool :=
  match wagerNum a, wagerNum b with
  | JSNumber.fin x, JSNumber.fin y => y ≤ x
  | _, _ => true

/-- Stable insertion of one element into a list: the new element lands
before the first position whose element it sorts no later than. -/
def jsInsert (le : α → α → Bool) (x : α) : List α → List α
  | [] => [x]
  | y :: ys => if le x y then x :: y :: ys else y :: jsInsert le x ys

/-- Stable sort: elements are inserted from last to first, so an earlier
arrival is inserted later and, on a tie, stays in front. -/
def jsSort (le : α → α → Bool) : List α → List α
  | [] => []
  | x :: xs => jsInsert le x (jsSort le xs)

/-- The `sorted` list of `updateLeaderboard`: filter, stable sort
descending by wager, truncate to the first ten. -/
def sortedPlayers (data : List JSEntry) : List JSEntry :=
  (jsSort jsLe (data.filter filterPred)).take 10

/-! ## Rendering into the ten fixed DOM slots

The render loop runs over slot indexes 0 through 9; for each it looks up
the two elements `user{i}_name` / `user{i}_wager`, skips the slot if
either is missing, writes name and formatted wager when a sorted entry
exists at that rank, and writes the dash placeholder pair otherwise. A
slot is modelled as the optional text content of those two elements, the
DOM as the list of slots in index order. -/

/-- One display slot: text content of the name and wager elements,
`none` when the element is missing from the page. -/
abbrev Slot := Option String × Option String

/-- The bank of display slots, in slot-index order. -/
abbrev Dom := List Slot

/-- `player.username || "User"`: empty or absent names fall back. -/
def displayName (p : Player) : String :=
  match p.username with
  | some s => if s = "" then "User" else s
  | none => "User"

/-- The pair of strings the loop writes for rank `i`: name and formatted
wager when `index < sorted.length && sorted[index]` holds, the dash
placeholder pair otherwise. -/
def slotContent (sorted : List JSEntry) (i : ℕ) : String × String :=
  match sorted.get? i with
  | some (some p) => (displayName p, formatCurrency p.wagerAmount)
  | some none => ("----", "----")
  | none => ("----", "----")

/-- Write content into a slot; a slot with either element missing is
left untouched (the `continue` branch). -/
def writeSlot (content : String × String) (slot : Slot) : Slot :=
  match slot with
  | (some _, some _) => (some content.1, some content.2)
  | _ => slot

/-- The render loop from slot index `i` on: only indexes below ten are
written (the loop bound), slots beyond the tenth are untouched. -/
def renderLoop (sorted : List JSEntry) : ℕ → Dom → Dom
  | _, [] => []
  | i, slot :: rest =>
      (if i < 10 then writeSlot (slotContent sorted i) slot else slot) ::
        renderLoop sorted (i + 1) rest

/-- Rendering a sorted list into the DOM slots. -/
def renderSlots (sorted : List JSEntry) (dom : Dom) : Dom := renderLoop sorted 0 dom

/-! ## The refresh cycle

The fetch / json / normalize / render chain of `updateLeaderboard` in the
main variant, with its final `.catch`. The parsed JSON body is modelled by
`JsonVal`; thrown errors and rejections travel in `Except`, and `runCycle`
is the whole cycle including the catch handler, so it is a total function:
no exception escapes it. The `ℕ` component counts `console.error` calls
during the cycle. -/

/-- A parsed JSON value, with exactly the structure the normalization code
inspects: the `data` and `ended` fields of an object are materialized,
`none` standing for an absent field. -/
inductive JsonVal where
  | null : JsonVal
  | num (x : JSNumber) : JsonVal
  | str (s : String) : JsonVal
  | boolV (b : Bool) : JsonVal
  | arr (elems : List JSEntry) : JsonVal
  | obj (dataField : Option JsonVal) (endedField : Option JsonVal) : JsonVal

/-- JS truthiness of a JSON value (NaN and zero are falsy numbers, the
empty string is falsy, arrays and objects are always truthy). -/
def truthy (v : JsonVal) : Bool :=
  match v with
  | JsonVal.null => false
  | JsonVal.num JSNumber.nan => false
  | JsonVal.num (JSNumber.fin q) => q != 0
  | JsonVal.str s => s != ""
  | JsonVal.boolV b => b
  | JsonVal.arr _ => true
  | JsonVal.obj _ _ => true

/-- Truthiness of an optional field (an absent field reads undefined,
which is falsy). -/
def truthyOpt (v : Option JsonVal) : Bool :=
  match v with
  | none => false
  | some w => truthy w

/-- Response normalization: a bare array is the data; otherwise the code
reads `response.data`, which throws a TypeError when the response is null;
an object with an array `data` field yields that array together with the
truthiness of its `ended` field; every other shape logs one console error
and degrades to zero entries. -/
def normalizeResp (v : JsonVal) : Except Unit (List JSEntry × Bool × ℕ) :=
  match v with
  | JsonVal.arr l => Except.ok (l, false, 0)
  | JsonVal.null => Except.error ()
  | JsonVal.obj (some (JsonVal.arr l)) ended => Except.ok (l, truthyOpt ended, 0)
  | _ => Except.ok ([], false, 1)

/-- Leaderboard widget session state: the one-way ended flag and the
repeating-refresh interval handle. -/
structure WidgetState where
  leaderboardEnded : Bool
  refreshInterval : Option ℕ
  deriving DecidableEq, Repr

/-- Outcome of the fetch of one cycle: a rejected promise, or an HTTP
response with its `ok` flag and its parsed JSON body (`none` when the
body is not valid JSON, so that `response.json()` rejects). -/
inductive FetchOutcome where
  | reject : FetchOutcome
  | resp (ok : Bool) (body : Option JsonVal) : FetchOutcome

/-- The cycle up to but not including the catch handler: non-ok statuses
and JSON parse failures throw; an ended signal on the object form sets the
session flag and clears the interval handle; the cycle then renders the
pipeline output. -/
def cycleBody (s : WidgetState) (dom : Dom) (o : FetchOutcome) :
    Except Unit (WidgetState × Dom × ℕ) :=
  match o with
  | FetchOutcome.reject => Except.error ()
  | FetchOutcome.resp ok body =>
      if ok then
        match body with
        | none => Except.error ()
        | some v =>
            match normalizeResp v with
            | Except.error e => Except.error e
            | Except.ok (data, endedFlag, logs) =>
                Except.ok
                  (if endedFlag then
                      { leaderboardEnded := true, refreshInterval := none }
                    else s,
                    renderSlots (sortedPlayers data) dom, logs)
      else Except.error ()

/-- The whole refresh cycle including the final catch handler: any thrown
error or rejection is caught and logged once, leaving state and DOM
untouched. This is a total function: no exception escapes it. -/
def runCycle (s : WidgetState) (dom : Dom) (o : FetchOutcome) : WidgetState × Dom × ℕ :=
  match cycleBody s dom o with
  | Except.ok r => r
  | Except.error _ => (s, dom, 1)

/-- Whether the repeating schedule would issue another automatic cycle:
`setInterval` only fires while the interval handle is live. -/
def autoTick (s : WidgetState) : Bool := s.refreshInterval.isSome

/-! ## Request construction

`updateLeaderboard` builds the request URL from the fixed base path and
the resolved window, adds a cache-busting timestamp, and fetches with
`cache: "no-store"` plus no-cache headers. -/

/-- The request as issued: URL path, query parameters in insertion order,
the cache mode, and the extra cache-control headers. -/
structure LBRequest where
  path : String
  params : List (String × String)
  cache : String
  headers : List (String × String)
  deriving DecidableEq, Repr

/-- The request of one refresh cycle, given the resolved window and the
current time (the `Date.now()` cache buster). -/
def buildRequest (startTime endTime now : ℤ) : LBRequest :=
  { path := "/api/leaderboard"
    params :=
      [("startTime", toString startTime), ("endTime", toString endTime),
        ("_t", toString now)]
    cache := "no-store"
    headers :=
      [("Cache-Control", "no-cache, no-store, must-revalidate"),
        ("Pragma", "no-cache"), ("Expires", "0")] }

/-! ## Sorting lemmas

Helper lemmas about the embedded stable sort. The comparator is consistent
exactly on entries whose wager is a finite number (`entryFin`); sortedness
and stability are proved for lists of such entries, which is where
ECMAScript defines the sort result at all. -/

/-- The wager of an entry as a rational; NaN wagers get a dummy value. -/
def wagerQ (e : JSEntry) : ℚ :=
  match wagerNum e with
  | JSNumber.fin q => q
  | JSNumber.nan => 0

/-- The entry has a finite (non-NaN) wager number. -/
def entryFin (e : JSEntry) : Prop := wagerNum e ≠ JSNumber.nan

/-- Descending order of wagers between two entries. -/
def descWager (a b : JSEntry) : Prop := wagerQ b ≤ wagerQ a

instance : DecidablePred entryFin := fun e => by unfold entryFin; infer_instance

instance (a : JSEntry) : Decidable (descWager a b) := by unfold descWager; infer_instance

/-- On entries with finite wagers, the collapsed comparator decides the
descending wager order. -/
theorem jsLe_fin (a b : JSEntry) (ha : entryFin a) (hb : entryFin b) :
    jsLe a b = decide (wagerQ b ≤ wagerQ a) := by
  rcases h1 : wagerNum a with _ | x
  · exact absurd h1 ha
  rcases h2 : wagerNum b with _ | y
  · exact absurd h2 hb
  simp [jsLe, wagerQ, h1, h2]

/-- Inserting is a permutation (cons). -/
theorem jsInsert_perm (le : α → α → Bool) (x : α) (l : List α) :
    List.Perm (jsInsert le x l) (x :: l) := by
  induction l with
  | nil => exact List.Perm.refl _
  | cons y ys ih =>
    cases hle : le x y with
    | true => simp [jsInsert, hle]
    | false =>
      simp only [jsInsert, hle, Bool.false_eq_true, if_false]
      exact (ih.cons y).trans (List.Perm.swap x y ys)

/-- Membership in an insertion. -/
theorem mem_jsInsert (le : α → α → Bool) (x a : α) (l : List α) :
    a ∈ jsInsert le x l ↔ a = x ∨ a ∈ l := by
  rw [(jsInsert_perm le x l).mem_iff, List.mem_cons]

/-- The sort permutes its input. -/
theorem jsSort_perm (le : α → α → Bool) (l : List α) :
    List.Perm (jsSort le l) l := by
  induction l with
  | nil => exact List.Perm.refl _
  | cons x xs ih => exact (jsInsert_perm le x (jsSort le xs)).trans (ih.cons x)

/-- Membership in the sort output. -/
theorem mem_jsSort (le : α → α → Bool) (a : α) (l : List α) :
    a ∈ jsSort le l ↔ a ∈ l := (jsSort_perm le l).mem_iff

/-- Inserting into a descending list of finite-wager entries keeps it
descending. -/
theorem pairwise_jsInsert (x : JSEntry) (l : List JSEntry) (hx : entryFin x)
    (hl : ∀ e ∈ l, entryFin e) (h : l.Pairwise descWager) :
    (jsInsert jsLe x l).Pairwise descWager := by
  induction l with
  | nil => simp [jsInsert, descWager]
  | cons y ys ih =>
    have hy : entryFin y := hl y (by simp)
    have hys : ∀ e ∈ ys, entryFin e := fun e he => hl e (by simp [he])
    rcases List.pairwise_cons.mp h with ⟨hyall, hysp⟩
    cases hle : jsLe x y with
    | true =>
      have hxy : wagerQ y ≤ wagerQ x := by
        rw [jsLe_fin x y hx hy] at hle
        exact of_decide_eq_true hle
      simp only [jsInsert, hle, if_true]
      refine List.pairwise_cons.mpr ⟨?_, h⟩
      intro b hb
      rcases List.mem_cons.mp hb with hb | hb
      · subst hb; exact hxy
      · exact le_trans (hyall b hb) hxy
    | false =>
      have hlt : wagerQ x < wagerQ y := by
        rw [jsLe_fin x y hx hy] at hle
        exact lt_of_not_le (of_decide_eq_false hle)
      simp only [jsInsert, hle, Bool.false_eq_true, if_false]
      refine List.pairwise_cons.mpr ⟨?_, ih hys hysp⟩
      intro b hb
      rcases (mem_jsInsert jsLe x b ys).mp hb with hb | hb
      · subst hb; exact le_of_lt hlt
      · exact hyall b hb

/-- The sort output of a list of finite-wager entries is descending. -/
theorem pairwise_jsSort (l : List JSEntry) (hl : ∀ e ∈ l, entryFin e) :
    (jsSort jsLe l).Pairwise descWager := by
  induction l with
  | nil => simp [jsSort]
  | cons x xs ih =>
    have hxs : ∀ e ∈ xs, entryFin e := fun e he => hl e (by simp [he])
    refine pairwise_jsInsert x _ (hl x (by simp)) ?_ (ih hxs)
    intro e he
    exact hxs e ((mem_jsSort jsLe e xs).mp he)

/-- Entries skipped while descending past the insertion point have
strictly larger wagers, so inserting a finite-wager entry splices it in
front of exactly the entries of its own wager class. -/
theorem jsInsert_filter (v : ℚ) (x : JSEntry) (l : List JSEntry) (hx : entryFin x)
    (hl : ∀ e ∈ l, entryFin e) :
    (jsInsert jsLe x l).filter (fun e => decide (wagerQ e = v)) =
      if wagerQ x = v then x :: l.filter (fun e => decide (wagerQ e = v))
      else l.filter (fun e => decide (wagerQ e = v)) := by
  induction l with
  | nil => by_cases hxv : wagerQ x = v <;> simp [jsInsert, hxv]
  | cons y ys ih =>
    have hy : entryFin y := hl y (by simp)
    have hys : ∀ e ∈ ys, entryFin e := fun e he => hl e (by simp [he])
    cases hle : jsLe x y with
    | true =>
      simp only [jsInsert, hle, if_true, List.filter_cons]
      split <;> split <;> simp_all [List.filter_cons]
    | false =>
      have hlt : wagerQ x < wagerQ y := by
        rw [jsLe_fin x y hx hy] at hle
        exact lt_of_not_le (of_decide_eq_false hle)
      simp only [jsInsert, hle, Bool.false_eq_true, if_false, List.filter_cons, ih hys]
      by_cases hxv : wagerQ x = v
      · have hyv : ¬ wagerQ y = v := fun hyv => absurd (hyv.trans hxv.symm) (ne_of_gt hlt)
        simp [hxv, hyv, List.filter_cons]
      · simp [hxv, List.filter_cons]

/-- Stability of the sort on finite-wager entries: each wager class of the
output lists its entries in arrival order. -/
theorem jsSort_filter (v : ℚ) (l : List JSEntry) (hl : ∀ e ∈ l, entryFin e) :
    (jsSort jsLe l).filter (fun e => decide (wagerQ e = v)) =
      l.filter (fun e => decide (wagerQ e = v)) := by
  induction l with
  | nil => rfl
  | cons x xs ih =>
    have hxs : ∀ e ∈ xs, entryFin e := fun e he => hl e (by simp [he])
    have hsx : ∀ e ∈ jsSort jsLe xs, entryFin e :=
      fun e he => hxs e ((mem_jsSort jsLe e xs).mp he)
    rw [jsSort, jsInsert_filter v x _ (hl x (by simp)) hsx, ih hxs, List.filter_cons]
    by_cases hxv : wagerQ x = v <;> simp [hxv]

/-! ## Sample data used by witnesses and counterexamples -/

/-- An entry with wager exactly zero. -/
def entryZero : Player := { username := some "a", wagerAmount := FieldVal.num (JSNumber.fin 0) }

/-- An entry whose wager is NaN (which has JS type number). -/
def entryNanB : Player := { username := some "b", wagerAmount := FieldVal.num JSNumber.nan }

/-- An entry whose wager is a string (non-numeric type, filtered out). -/
def entryStr : Player := { username := some "c", wagerAmount := FieldVal.str "x" }

/-- A second NaN-wager entry. -/
def entryNanD : Player := { username := some "d", wagerAmount := FieldVal.num JSNumber.nan }

/-- An entry with wager 2. -/
def entryTwo : Player := { username := some "e", wagerAmount := FieldVal.num (JSNumber.fin 2) }

/-- A mixed input list with numeric (including NaN) and non-numeric wagers. -/
def mixedList : List JSEntry :=
  [some entryZero, some entryNanB, some entryStr, some entryNanD, some entryTwo]

/-- A mixed input list whose numeric wagers are all finite. -/
def finiteList : List JSEntry := [some entryZero, some entryStr, some entryTwo, none]

/-- A sample widget session state with a live refresh interval. -/
def sampleState : WidgetState := { leaderboardEnded := false, refreshInterval := some 0 }

/-- A sample DOM with one fully present slot showing earlier content. -/
def sampleDom : Dom := [(some "Alice", some "1.00")]

/-- A sample DOM with present, partially missing and extra slots. -/
def sampleDom3 : Dom := [(some "n0", some "w0"), (none, some "w1"), (some "n2", some "w2")]

/-! ## Claim C1 -/

/-- Claim C1, as stated, is false: NaN has JS type number, so NaN-wager
entries pass the filter, and the comparator `b.wagerAmount -
a.wagerAmount` evaluates to NaN on them, which SortCompare treats as a
tie. On the mixed list (wagers 0, NaN, "x", NaN, 2) every comparison made
by the sort involves a NaN, so the output keeps arrival order 0, NaN,
NaN, 2 and is not descending: the 0 entry precedes the 2 entry, both
finite. The failure is stated for the relation that only constrains
finite-wager pairs, so it does not depend on how NaN wagers are read. -/
theorem sortedPlayers_not_descending :
    (∃ e ∈ mixedList, filterPred e = true) ∧
    (∃ e ∈ mixedList, e ≠ none ∧ filterPred e = false) ∧
    sortedPlayers mixedList =
      [some entryZero, some entryNanB, some entryNanD, some entryTwo] ∧
    ¬ (sortedPlayers mixedList).Pairwise
        (fun a b => entryFin a → entryFin b → wagerQ b ≤ wagerQ a) := by
  decide

/-- Claim C1 (amended: the input list has no NaN among the wagers that
pass the numeric-type filter): the pipeline output of `updateLeaderboard`
contains only entries of numeric wager type (zero wagers included), has at
most ten entries, is descending in wager, and each wager class keeps its
arrival order (stability), the output being the ten-entry prefix of the
stable sort of the filtered input. -/
theorem sortedPlayers_pipeline (l : List JSEntry)
    (hfin : ∀ e ∈ l, filterPred e = true → entryFin e) :
    (∀ e ∈ sortedPlayers l, filterPred e = true) ∧
    (sortedPlayers l).length ≤ 10 ∧
    (sortedPlayers l).Pairwise descWager ∧
    (∀ v : ℚ,
      (jsSort jsLe (l.filter filterPred)).filter (fun e => decide (wagerQ e = v)) =
        (l.filter filterPred).filter (fun e => decide (wagerQ e = v))) ∧
    sortedPlayers l = (jsSort jsLe (l.filter filterPred)).take 10 ∧
    (∀ p : Player,
      p.wagerAmount = FieldVal.num (JSNumber.fin 0) → filterPred (some p) = true) := by
  have hmem : ∀ e ∈ l.filter filterPred, entryFin e := by
    intro e he
    rcases List.mem_filter.mp he with ⟨hel, hep⟩
    exact hfin e hel hep
  refine ⟨?_, ?_, ?_, ?_, rfl, ?_⟩
  · intro e he
    have h1 : e ∈ jsSort jsLe (l.filter filterPred) :=
      (List.take_sublist 10 _).subset he
    exact (List.mem_filter.mp ((mem_jsSort jsLe e _).mp h1)).2
  · exact List.length_take_le 10 _
  · exact (pairwise_jsSort _ hmem).sublist (List.take_sublist 10 _)
  · intro v
    exact jsSort_filter v _ hmem
  · intro p hp
    simp [filterPred, hp]

/-- Witness for the amended claim C1 on a concrete mixed list with finite
numeric wagers (0, a string, 2, a nullish element). -/
theorem sortedPlayers_pipeline_witness :
    (∀ e ∈ sortedPlayers finiteList, filterPred e = true) ∧
    (sortedPlayers finiteList).length ≤ 10 ∧
    (sortedPlayers finiteList).Pairwise descWager ∧
    (∀ v : ℚ,
      (jsSort jsLe (finiteList.filter filterPred)).filter
          (fun e => decide (wagerQ e = v)) =
        (finiteList.filter filterPred).filter (fun e => decide (wagerQ e = v))) ∧
    sortedPlayers finiteList = (jsSort jsLe (finiteList.filter filterPred)).take 10 ∧
    (∀ p : Player,
      p.wagerAmount = FieldVal.num (JSNumber.fin 0) → filterPred (some p) = true) :=
  sortedPlayers_pipeline finiteList (by decide)

/-! ## Claim C10 -/

/-- Claim C10: a NaN wager has JS type number, so the entry passes the
numeric-type filter and can occupy a top-ten slot (alone, it occupies
slot zero); `formatCurrency` renders it as "0.00" because `Number(value)
|| 0` collapses the falsy NaN to zero. -/
theorem nan_entry_kept (p : Player)
    (h : p.wagerAmount = FieldVal.num JSNumber.nan) :
    filterPred (some p) = true ∧
    formatCurrency p.wagerAmount = "0.00" ∧
    sortedPlayers [some p] = [some p] ∧
    slotContent (sortedPlayers [some p]) 0 = (displayName p, "0.00") := by
  have hf : filterPred (some p) = true := by simp [filterPred, h]
  have hs : sortedPlayers [some p] = [some p] := by
    simp [sortedPlayers, List.filter_cons, hf, jsSort, jsInsert]
  have hfmt : formatCurrency p.wagerAmount = "0.00" := by rw [h]; rfl
  refine ⟨hf, hfmt, hs, ?_⟩
  rw [hs]
  simp only [slotContent, List.get?_cons_zero]
  rw [hfmt]

/-- Witness for claim C10 at the concrete NaN-wager entry. -/
theorem nan_entry_kept_witness :
    filterPred (some entryNanB) = true ∧
    formatCurrency entryNanB.wagerAmount = "0.00" ∧
    sortedPlayers [some entryNanB] = [some entryNanB] ∧
    slotContent (sortedPlayers [some entryNanB]) 0 = (displayName entryNanB, "0.00") :=
  nan_entry_kept entryNanB rfl

/-! ## Claim C2 -/

/-- Claim C2: on a response object with a data array and ended true, the
cycle sets the session ended flag, clears the repeating-refresh handle
(so the scheduler issues no further automatic cycle: `autoTick` is false),
and still renders the data of the current cycle into the DOM. -/
theorem ended_response_stops_polling (s : WidgetState) (dom : Dom) (l : List JSEntry) :
    runCycle s dom
        (FetchOutcome.resp true
          (some (JsonVal.obj (some (JsonVal.arr l)) (some (JsonVal.boolV true))))) =
      ({ leaderboardEnded := true, refreshInterval := none },
        renderSlots (sortedPlayers l) dom, 0) ∧
    autoTick { leaderboardEnded := true, refreshInterval := none } = false :=
  ⟨rfl, rfl⟩

/-! ## Claim C3 -/

/-- Claim C3, as stated, is false at the parsed JSON response null: since
null is not an array, the code evaluates `response.data`, which throws a
TypeError; the cycle is aborted by the catch handler (one error log, DOM
untouched) instead of degrading to an empty render, which would have
overwritten the sample slot with placeholders. -/
theorem null_response_aborts_cycle :
    runCycle sampleState sampleDom (FetchOutcome.resp true (some JsonVal.null)) =
      (sampleState, sampleDom, 1) ∧
    renderSlots (sortedPlayers []) sampleDom ≠ sampleDom :=
  ⟨rfl, by decide⟩

/-- Claim C3 (amended: the response is additionally not null): a parsed
response that is neither a bare array nor an object whose data field is an
array, and is not null, is treated as zero entries: the cycle logs one
console error, keeps the session state, and renders the empty pipeline
result (placeholders) instead of aborting. -/
theorem unexpected_shape_degrades (s : WidgetState) (dom : Dom) (v : JsonVal)
    (hnull : v ≠ JsonVal.null)
    (harr : ∀ l, v ≠ JsonVal.arr l)
    (hdata : ∀ dl ef, v ≠ JsonVal.obj (some (JsonVal.arr dl)) ef) :
    runCycle s dom (FetchOutcome.resp true (some v)) =
      (s, renderSlots (sortedPlayers []) dom, 1) := by
  cases v with
  | null => exact absurd rfl hnull
  | num x => rfl
  | str t => rfl
  | boolV b => rfl
  | arr l => exact absurd rfl (harr l)
  | obj dataField endedField =>
    cases dataField with
    | none => rfl
    | some dv =>
      cases dv with
      | null => rfl
      | num x => rfl
      | str t => rfl
      | boolV b => rfl
      | arr dl => exact absurd rfl (hdata dl endedField)
      | obj d2 e2 => rfl

/-- Witness for the amended claim C3 at the concrete response 5 (a JSON
number, which is neither an array nor an object): the cycle degrades to
an empty render with one error log. -/
theorem unexpected_shape_degrades_witness :
    runCycle sampleState sampleDom
        (FetchOutcome.resp true (some (JsonVal.num (JSNumber.fin 5)))) =
      (sampleState, renderSlots (sortedPlayers []) sampleDom, 1) :=
  unexpected_shape_degrades sampleState sampleDom (JsonVal.num (JSNumber.fin 5))
    (fun h => JsonVal.noConfusion h) (fun _ h => JsonVal.noConfusion h)
    (fun _ _ h => JsonVal.noConfusion h)

/-! ## Claim C4 -/

/-- The failure modes of one cycle: a rejected fetch, a non-success HTTP
status, or a JSON body that does not parse. -/
def isFailureOutcome : FetchOutcome → Bool
  | FetchOutcome.reject => true
  | FetchOutcome.resp ok body => !ok || body.isNone

/-- Claim C4: every failed cycle is caught by the top-level catch handler
(a total function, so no exception escapes), logs exactly one error,
leaves every rendered slot unchanged, and leaves the session state, hence
the repeating schedule, untouched. -/
theorem failed_cycle_caught (s : WidgetState) (dom : Dom) (o : FetchOutcome)
    (h : isFailureOutcome o = true) :
    runCycle s dom o = (s, dom, 1) ∧
    autoTick (runCycle s dom o).1 = autoTick s := by
  have hrun : runCycle s dom o = (s, dom, 1) := by
    cases o with
    | reject => rfl
    | resp ok body =>
      cases ok with
      | false => rfl
      | true =>
        cases body with
        | none => rfl
        | some v => simp [isFailureOutcome] at h
  exact ⟨hrun, by rw [hrun]⟩

/-- Witness for claim C4 at a concrete rejected fetch. -/
theorem failed_cycle_caught_witness :
    runCycle sampleState sampleDom FetchOutcome.reject = (sampleState, sampleDom, 1) ∧
    autoTick (runCycle sampleState sampleDom FetchOutcome.reject).1 =
      autoTick sampleState :=
  failed_cycle_caught sampleState sampleDom FetchOutcome.reject rfl

/-! ## Claim C6 -/

/-- Indexing through the render loop: slot `i` of the output is slot `i`
of the input, written when its running index is below ten. -/
theorem renderLoop_get (sorted : List JSEntry) (dom : Dom) (k i : ℕ) :
    (renderLoop sorted k dom).get? i =
      (dom.get? i).map (fun slot =>
        if k + i < 10 then writeSlot (slotContent sorted (k + i)) slot else slot) := by
  induction dom generalizing k i with
  | nil => simp [renderLoop]
  | cons slot rest ih =>
    cases i with
    | zero => simp [renderLoop]
    | succ j =>
      have harith : k + (j + 1) = (k + 1) + j := by omega
      rw [show renderLoop sorted k (slot :: rest) =
            (if k < 10 then writeSlot (slotContent sorted k) slot else slot) ::
              renderLoop sorted (k + 1) rest from rfl,
        List.get?_cons_succ, List.get?_cons_succ, harith]
      exact ih (k + 1) j

/-- Claim C6: a display slot among the first ten with no corresponding
sorted entry receives the placeholder pair in both fields when both its
DOM elements are present, and is silently skipped (left unchanged) when
either element is missing; the rendering loop is a total function, so no
exception escapes it. -/
theorem render_placeholder_slots (sorted : List JSEntry) (dom : Dom) (i : ℕ)
    (hi : i < 10) (hlen : sorted.length ≤ i) :
    (renderSlots sorted dom).get? i =
      (dom.get? i).map (writeSlot ("----", "----")) ∧
    (∀ a b, writeSlot ("----", "----") (some a, some b) = (some "----", some "----")) ∧
    (∀ slot : Slot, slot.1 = none ∨ slot.2 = none →
      writeSlot ("----", "----") slot = slot) := by
  refine ⟨?_, fun a b => rfl, ?_⟩
  · rw [renderSlots, renderLoop_get]
    have hnone : sorted.get? i = none := List.get?_eq_none.mpr hlen
    have hc : slotContent sorted i = ("----", "----") := by
      unfold slotContent
      rw [hnone]
    simp [hc, hi]
  · intro slot hslot
    rcases slot with ⟨s1, s2⟩
    rcases s1 with _ | a
    · rfl
    rcases s2 with _ | b
    · rfl
    · rcases hslot with h | h <;> simp at h

/-- Witness for claim C6 at slot index 1 of a three-slot DOM (the first
slot present, the second missing its name element, the third present)
with an empty sorted list. -/
theorem render_placeholder_slots_witness :
    (renderSlots [] sampleDom3).get? 1 =
      ((sampleDom3 : Dom).get? 1).map (writeSlot ("----", "----")) ∧
    (∀ a b, writeSlot ("----", "----") (some a, some b) = (some "----", some "----")) ∧
    (∀ slot : Slot, slot.1 = none ∨ slot.2 = none →
      writeSlot ("----", "----") slot = slot) :=
  render_placeholder_slots [] sampleDom3 1 (by norm_num) (by norm_num)

/-! ## Time-window lemmas -/

/-- The day component of the civil day count is linear: like the `Date.UTC`
day argument, day `d` lies `d - 1` days after day 1 of the same month. -/
theorem daysFromCivil_shift (y m d : ℤ) :
    daysFromCivil y m d = daysFromCivil y m 1 + (d - 1) := by
  simp only [daysFromCivil, civilDoe, civilDoy]
  ring

/-- An Eastern day window spans from its first to its last second:
86399000 milliseconds. -/
theorem createEasternDate_day_span (y m d : ℤ) :
    createEasternDate y m d 23 59 59 = createEasternDate y m d 0 0 0 + 86399000 := by
  simp only [createEasternDate, epochUTC]
  ring

/-- Every month has at least 28 days. -/
theorem daysInMonth_ge (y m : ℤ) : 28 ≤ daysInMonth y m := by
  unfold daysInMonth
  split_ifs <;> norm_num

/-- The default monthly window is ordered: the month start instant does
not exceed the month end instant. -/
theorem monthWindow_le (y m : ℤ) : getMonthStartEastern y m ≤ getMonthEndEastern y m := by
  have h28 := daysInMonth_ge y m
  have hshift :=
    daysFromCivil_shift (y + m.fdiv 12) (m.emod 12 + 1) (daysInMonth y m)
  simp only [getMonthStartEastern, getMonthEndEastern, createEasternDate, epochUTC]
  rw [hshift]
  linarith

/-! ## Claim C9 -/

/-- Claim C9: every window the resolver can produce, in default monthly
mode, in fixed-constant mode, or for any day-override parameter value,
satisfies start less than or equal to end. -/
theorem window_start_le_end (y m : ℤ) (dp : Option ParsedDay) :
    (selectWindow y m dp).1 ≤ (selectWindow y m dp).2 ∧
    (∀ dp2 : Option ParsedDay, (selectWindowFixed dp2).1 ≤ (selectWindowFixed dp2).2) := by
  constructor
  · rcases dp with _ | pd
    · exact monthWindow_le y m
    rcases pd with _ | d
    · exact monthWindow_le y m
    · simp only [selectWindow]
      split
      · rw [createEasternDate_day_span]
        simp
      · exact monthWindow_le y m
  · intro dp2
    have hday : ∀ d : ℤ, epochUTC 2025 11 d 0 0 0 ≤ epochUTC 2025 11 d 23 59 59 := by
      intro d
      simp only [epochUTC]
      linarith
    have hdef : epochUTC 2025 11 1 0 0 0 ≤ epochUTC 2025 11 30 23 59 59 := by decide
    rcases dp2 with _ | pd
    · exact hdef
    rcases pd with _ | d
    · exact hdef
    · simp only [selectWindowFixed]
      split
      · exact hday d
      · exact hdef

/-! ## Claim C5 -/

/-- Claim C5: a `day` parameter whose integer value is in [1, 31] resolves
to exactly that day of the current Eastern month, from its 00:00:00
instant to its 23:59:59 instant (86399000 ms later); a value outside
[1, 31] (and likewise an unparseable value) falls back to the default
monthly window. -/
theorem dayParam_window (y m d : ℤ) :
    (1 ≤ d → d ≤ 31 →
      selectWindow y m (some (ParsedDay.val d)) =
        (createEasternDate y m d 0 0 0, createEasternDate y m d 0 0 0 + 86399000)) ∧
    ((d < 1 ∨ 31 < d) →
      selectWindow y m (some (ParsedDay.val d)) = selectWindow y m none) ∧
    selectWindow y m (some ParsedDay.nan) = selectWindow y m none := by
  refine ⟨?_, ?_, rfl⟩
  · intro h1 h2
    simp only [selectWindow, if_pos (And.intro h1 h2)]
    rw [createEasternDate_day_span]
  · intro h
    have hno : ¬ (1 ≤ d ∧ d ≤ 31) := by omega
    simp only [selectWindow, if_neg hno]

/-- Witness for claim C5 at the in-range day 15 and the out-of-range
day 32, for December 2025. -/
theorem dayParam_window_witness :
    selectWindow 2025 11 (some (ParsedDay.val 15)) =
      (createEasternDate 2025 11 15 0 0 0,
        createEasternDate 2025 11 15 0 0 0 + 86399000) ∧
    selectWindow 2025 11 (some (ParsedDay.val 32)) = selectWindow 2025 11 none :=
  ⟨(dayParam_window 2025 11 15).1 (by omega) (by omega),
    (dayParam_window 2025 11 32).2.1 (by omega)⟩

/-! ## Claim C7 -/

/-- Claim C7: at a remaining difference of 90061000 ms the countdown
displays the zero-padded decomposition 01D 01H 01M 01S; at a nonpositive
difference an active tick writes the fixed expired string and clears the
repeating interval, and once the interval is inactive a scheduled tick
performs no DOM write at all. -/
theorem countdown_tick (now : ℤ) (st : TimerState) :
    (targetDate - now = 90061000 →
      calculateTimeRemaining now = TickResult.running "01D 01H 01M 01S") ∧
    (st.intervalActive = true → targetDate - now ≤ 0 →
      timerTick st now = (⟨false⟩, some "00D 00H 00M 00S")) ∧
    (st.intervalActive = false → timerTick st now = (st, none)) := by
  refine ⟨?_, ?_, ?_⟩
  · intro h
    unfold calculateTimeRemaining
    rw [h, if_neg (by norm_num)]
    rfl
  · intro h1 h2
    simp only [timerTick, h1, if_true, calculateTimeRemaining, if_pos h2]
  · intro h
    simp [timerTick, h]

/-- Witness for claim C7: the 90061000 ms instant, an active expired
tick, and an inactive tick. -/
theorem countdown_tick_witness :
    calculateTimeRemaining (targetDate - 90061000) =
      TickResult.running "01D 01H 01M 01S" ∧
    timerTick ⟨true⟩ targetDate = (⟨false⟩, some "00D 00H 00M 00S") ∧
    timerTick ⟨false⟩ 0 = (⟨false⟩, none) :=
  ⟨(countdown_tick (targetDate - 90061000) ⟨true⟩).1 (by ring),
    (countdown_tick targetDate ⟨true⟩).2.1 rfl (by simp),
    (countdown_tick 0 ⟨false⟩).2.2 rfl⟩

/-! ## Claim C8 -/

/-- Claim C8: every cycle issues its request against the fixed base path
with the resolved window as decimal `startTime` and `endTime` parameters,
a `_t` cache buster set to the current time, and caching disabled. -/
theorem request_construction (startTime endTime now : ℤ) :
    (buildRequest startTime endTime now).path = "/api/leaderboard" ∧
    (buildRequest startTime endTime now).params =
      [("startTime", toString startTime), ("endTime", toString endTime),
        ("_t", toString now)] ∧
    (buildRequest startTime endTime now).cache = "no-store" :=
  ⟨rfl, rfl, rfl⟩
